import Mathlib

/-!
Shallow embedding of the ESPNowMeshClock library (ESP32 mesh time
synchronization over ESP-NOW) and proofs about its specification.

The embedding follows `src/src/ESPNowMeshClock.cpp` together with the
revisions of the same class kept in the repository (`src/unnamed/part_001`).
Machine integers are modelled as `Nat` with explicit reduction modulo
`2^64` / `2^32` where the C code wraps; `int64_t` values are modelled as
`Int` obtained by reinterpreting a wrapped 64-bit pattern (`toInt64`).
The `float` multiplication `delta * _alpha` of the slew branch is modelled
exactly: converting an integer to IEEE-754 binary32 rounds it to 24
significant bits (round-to-nearest, ties-to-even), which `f32roundNat`
implements, and multiplying by a float `aNum / 2^aExp` and truncating to
`uint64_t` is `f32roundNat (f32roundNat delta * aNum) / 2^aExp` (the scaling
by a power of two is exact in binary floating point, and results below one
truncate to zero in either view).
-/

/-- Magic byte 0 of a clock packet, letter M (from `ESPNowMeshClock.h`). -/
def MESHCLOCK_MAGIC_0 : Nat := 0x4D

/-- Magic byte 1 of a clock packet, letter C. -/
def MESHCLOCK_MAGIC_1 : Nat := 0x43

/-- Magic byte 2 of a clock packet, letter K. -/
def MESHCLOCK_MAGIC_2 : Nat := 0x4B

/-- Default estimated one-way transmission delay in microseconds
(`TRANSMISSION_DELAY_US` in `ESPNowMeshClock.h`). -/
def TRANSMISSION_DELAY_US : Nat := 1000

/-- Reinterpret a 64-bit unsigned pattern as a signed `int64_t` value. -/
def toInt64 (n : Nat) : Int :=
  if n < 2^63 then (n : Int) else (n : Int) - 2^64

/-- Store an integer into a `uint64_t`, wrapping modulo `2^64`. -/
def wrap64i (z : Int) : Nat := (z % (2^64 : Int)).toNat

/-- Store an integer into a `uint32_t`, wrapping modulo `2^32`. -/
def wrap32i (z : Int) : Nat := (z % (2^32 : Int)).toNat

/-- Wrapping `uint32_t` subtraction `a - b`. -/
def sub32 (a b : Nat) : Nat := (a % 2^32 + 2^32 - b % 2^32) % 2^32

/-- Wrapping `uint64_t` subtraction `a - b`. -/
def sub64 (a b : Nat) : Nat := (a % 2^64 + 2^64 - b % 2^64) % 2^64

/-- The Arduino `abs` macro `((x)>0?(x):-(x))` applied to an `int64_t`:
the negation wraps in 64 bits. -/
def absWrap (d : Int) : Int := if 0 < d then d else toInt64 (wrap64i (-d))

/-- Constructor configuration of `ESPNowMeshClock`.  `slew_alpha` is a
binary32 `float`; every such value in `[0, 1]` equals `alphaNum / 2^alphaDen`
with `alphaNum < 2^24` (its significand) and `alphaNum ≤ 2^alphaDen`. -/
structure Config where
  /-- `_interval` (uint16_t), broadcast period in ms. -/
  interval : Nat
  /-- Significand of `_alpha` (float): alpha = alphaNum / 2^alphaDen. -/
  alphaNum : Nat
  /-- Binary exponent of `_alpha`. -/
  alphaDen : Nat
  /-- `_largeStep` (uint32_t), microseconds. -/
  largeStep : Nat
  /-- `_syncTimeout` (uint32_t), milliseconds. -/
  syncTimeout : Nat
  /-- `_randomVariation` (uint8_t), percent. -/
  randomVariation : Nat
  deriving DecidableEq

/-- The constructor defaults: 1000 ms interval, alpha = 0.25 = 1/2^2,
10000 us large step, 5000 ms timeout, 10 percent variation. -/
def defaultConfig : Config :=
  { interval := 1000, alphaNum := 1, alphaDen := 2, largeStep := 10000,
    syncTimeout := 5000, randomVariation := 10 }

/-- Mutable runtime state of `ESPNowMeshClock`.  `userCallback` records
whether a user callback is registered (`_userCallback != nullptr`). -/
structure State where
  /-- `_offset` (uint64_t bit pattern). -/
  offset : Nat
  /-- `_synced`. -/
  synced : Bool
  /-- `_lastSync` (uint32_t, ms). -/
  lastSync : Nat
  /-- `_lastBroadcast` (uint32_t, ms). -/
  lastBroadcast : Nat
  /-- `_nextBroadcastDelay` (uint32_t, ms); 0 means unchosen. -/
  nextBroadcastDelay : Nat
  /-- Whether `_userCallback` is set. -/
  userCallback : Bool
  deriving DecidableEq

/-- State right after construction. -/
def initState : State :=
  { offset := 0, synced := false, lastSync := 0, lastBroadcast := 0,
    nextBroadcastDelay := 0, userCallback := false }

/-- Number of significant binary digits of `n`, computed with explicit
fuel so that it evaluates by kernel reduction (`sigBits 64 n` is correct
for every `n < 2^64`). -/
def sigBits : Nat → Nat → Nat
  | 0, _ => 0
  | f+1, n => if n = 0 then 0 else sigBits f (n / 2) + 1

/-- Round a natural number to 24 significant bits, round-to-nearest with
ties-to-even: the value of converting an integer below `2^64` to an IEEE-754
binary32 `float`. -/
def f32roundNat (n : Nat) : Nat :=
  let g := 2^(sigBits 64 n - 24)
  let q := n / g
  let r := n % g
  if 2*r < g then q*g
  else if g < 2*r then (q+1)*g
  else if q % 2 = 0 then q*g else (q+1)*g

/-- The slewed step `(uint64_t)(delta * _alpha)` of `ESPNowMeshClock::_adjust`
for `_alpha = aNum / 2^aExp`: the positive `int64_t` delta is converted to
`float` (rounding to 24 significant bits), multiplied by `_alpha` (the result
rounds to 24 significant bits again; division by the power of two is exact),
and truncated back to an unsigned integer. -/
def slewStep (aNum aExp delta : Nat) : Nat :=
  f32roundNat (f32roundNat delta * aNum) / 2^aExp

/-- `ESPNowMeshClock::meshMicros()`: `_clock() + _offset` in `uint64_t`. -/
def meshMicros (s : State) (clock : Nat) : Nat := (clock + s.offset) % 2^64

/-- `ESPNowMeshClock::meshMillis()`: `meshMicros() / 1000` narrowed to 32 bits. -/
def meshMillis (s : State) (clock : Nat) : Nat := meshMicros s clock / 1000 % 2^32

/-- The `SyncState` enumeration. -/
inductive SyncState where
  | ALONE
  | SYNCED
  | LOST
  deriving DecidableEq

/-- `ESPNowMeshClock::getSyncState()`, with `nowMs` the `millis()` reading. -/
def getSyncState (cfg : Config) (s : State) (nowMs : Nat) : SyncState :=
  if s.synced = false then SyncState.ALONE
  else if cfg.syncTimeout < sub32 nowMs s.lastSync then SyncState.LOST
  else SyncState.SYNCED

/-- The signed delta `(int64_t)(remoteMicros - localMicros)` computed by
`ESPNowMeshClock::_adjust`, with `localMicros = _clock() + _offset`. -/
def deltaOf (s : State) (clock remote : Nat) : Int :=
  toInt64 (sub64 remote ((clock + s.offset) % 2^64))

/-- `ESPNowMeshClock::_adjust` as in `src/src/ESPNowMeshClock.cpp`:
`_lastSync = millis()` unconditionally; if `!_synced || abs(delta) > _largeStep`
then `_offset += delta; _synced = true` (note: also for negative delta);
else if `delta > 0` then `_offset += (uint64_t)(delta * _alpha)`. -/
def adjust (cfg : Config) (s : State) (clock nowMs remote : Nat) : State :=
  if ¬ s.synced ∨ (cfg.largeStep : Int) < absWrap (deltaOf s clock remote) then
    { s with lastSync := nowMs % 2^32,
             offset := wrap64i ((s.offset : Int) + deltaOf s clock remote),
             synced := true }
  else if 0 < deltaOf s clock remote then
    { s with lastSync := nowMs % 2^32,
             offset := (s.offset +
               slewStep cfg.alphaNum cfg.alphaDen (deltaOf s clock remote).toNat) % 2^64 }
  else { s with lastSync := nowMs % 2^32 }

/-- `ESPNowMeshClock::_adjust` as in the revision at `src/unnamed/part_001`
lines 162-205: the large-step branch applies the delta only when `delta > 0`
(forward-only) and otherwise just sets `_synced = true`. -/
def adjustV2 (cfg : Config) (s : State) (clock nowMs remote : Nat) : State :=
  if ¬ s.synced ∨ (cfg.largeStep : Int) < absWrap (deltaOf s clock remote) then
    if 0 < deltaOf s clock remote then
      { s with lastSync := nowMs % 2^32,
               offset := wrap64i ((s.offset : Int) + deltaOf s clock remote),
               synced := true }
    else
      { s with lastSync := nowMs % 2^32, synced := true }
  else if 0 < deltaOf s clock remote then
    { s with lastSync := nowMs % 2^32,
             offset := (s.offset +
               slewStep cfg.alphaNum cfg.alphaDen (deltaOf s clock remote).toNat) % 2^64 }
  else { s with lastSync := nowMs % 2^32 }

/-- Reassembly of the 56-bit little-endian timestamp from bytes 3..9 of a
clock packet: `remoteMicros |= ((uint64_t)packet->timestamp[i]) << (i * 8)`
for `i = 0..6` (`ESPNowMeshClock::handleReceive`). -/
def extractTimestamp (data : List Nat) : Nat :=
  (List.range 7).foldl (fun acc i => acc ||| (data.getD (3+i) 0) <<< (8*i)) 0

/-- `ESPNowMeshClock::handleReceive(mac, data, len)`: returns the updated
state and the `bool` result.  A frame is a clock frame iff its length is
exactly 10 (`sizeof(MeshClockPacket)`) and its first three bytes are the
`MCK` magic; then the timestamp is extracted and `_adjust` runs. -/
def handleReceive (cfg : Config) (s : State) (clock nowMs : Nat)
    (mac data : List Nat) : State × Bool :=
  if data.length = 10 ∧ data.getD 0 0 = MESHCLOCK_MAGIC_0 ∧
     data.getD 1 0 = MESHCLOCK_MAGIC_1 ∧ data.getD 2 0 = MESHCLOCK_MAGIC_2 then
    (adjust cfg s clock nowMs (extractTimestamp data), true)
  else (s, false)

/-- `ESPNowMeshClock::_onReceive` (owning mode): run `handleReceive`; when it
returns false and a user callback is registered, forward the untouched frame
`(mac, data, len)` to it, otherwise forward nothing. -/
def onReceive (cfg : Config) (s : State) (clock nowMs : Nat)
    (mac data : List Nat) : State × Option (List Nat × List Nat × Nat) :=
  let r := handleReceive cfg s clock nowMs mac data
  if r.2 = false ∧ s.userCallback then (r.1, some (mac, data, data.length))
  else (r.1, none)

/-- The serialization of `ESPNowMeshClock::_broadcast`: magic bytes then
`packet.timestamp[i] = (stamp >> (i * 8)) & 0xFF` for `i = 0..6`. -/
def encodeStamp (stamp : Nat) : List Nat :=
  [MESHCLOCK_MAGIC_0, MESHCLOCK_MAGIC_1, MESHCLOCK_MAGIC_2] ++
    (List.range 7).map (fun i => (stamp >>> (8*i)) &&& 0xFF)

/-- The stamp computed by `ESPNowMeshClock::_broadcast` in the revision at
`src/unnamed/part_001` lines 207-233: `meshMicros() + TRANSMISSION_DELAY_US`
(in `uint64_t`), with the delay taken as a parameter `txDelay`. -/
def broadcastStamp (txDelay : Nat) (s : State) (clock : Nat) : Nat :=
  (meshMicros s clock + txDelay) % 2^64

/-- The full 10-byte frame emitted by `_broadcast`. -/
def broadcastFrame (txDelay : Nat) (s : State) (clock : Nat) : List Nat :=
  encodeStamp (broadcastStamp txDelay s clock)

/-- First half of `ESPNowMeshClock::loop()`: when `_nextBroadcastDelay == 0`,
store `_interval + randomOffset` into the `uint32_t` field, where
`randomOffset = random(-variation, variation + 1)` is the supplied draw `r`. -/
def chooseDelay (cfg : Config) (s : State) (r : Int) : State :=
  if s.nextBroadcastDelay = 0 then
    { s with nextBroadcastDelay := wrap32i ((cfg.interval : Int) + r) }
  else s

/-- `ESPNowMeshClock::loop()`, with `nowMs` the `millis()` reading and `r`
the random draw: after possibly choosing a fresh delay, if
`nowMs - _lastBroadcast >= _nextBroadcastDelay` (uint32 arithmetic), record
`_lastBroadcast = nowMs`, reset `_nextBroadcastDelay = 0` and emit one
broadcast (the returned flag). -/
def loop (cfg : Config) (s : State) (nowMs : Nat) (r : Int) : State × Bool :=
  let s1 := chooseDelay cfg s r
  if s1.nextBroadcastDelay ≤ sub32 nowMs s1.lastBroadcast then
    ({ s1 with lastBroadcast := nowMs % 2^32, nextBroadcastDelay := 0 }, true)
  else (s1, false)

/-- Claim C3: `handleReceive` returns true if and only if the buffer is
exactly 10 bytes long and starts with the three magic bytes 0x4D 0x43 0x4B
(`MCK`), for every source address and buffer; in every other case it
returns false. -/
theorem handleReceive_true_iff_clock_frame
    (cfg : Config) (s : State) (clock nowMs : Nat) (mac data : List Nat) :
    (handleReceive cfg s clock nowMs mac data).2 = true ↔
      (data.length = 10 ∧ data.getD 0 0 = 0x4D ∧
       data.getD 1 0 = 0x43 ∧ data.getD 2 0 = 0x4B) := by
  unfold handleReceive MESHCLOCK_MAGIC_0 MESHCLOCK_MAGIC_1 MESHCLOCK_MAGIC_2
  split
  next h => simpa using h
  next h => simpa using h

/-- Claim C4: `getSyncState` returns ALONE iff `synced` is false, LOST iff
`synced` is true and the wrapping 32-bit difference `nowMs - lastSync`
exceeds `syncTimeout`, and SYNCED iff `synced` is true and that difference
is at most `syncTimeout`; it is a pure derivation from the stored fields. -/
theorem getSyncState_derivation (cfg : Config) (s : State) (nowMs : Nat) :
    (getSyncState cfg s nowMs = SyncState.ALONE ↔ s.synced = false) ∧
    (getSyncState cfg s nowMs = SyncState.LOST ↔
      s.synced = true ∧ cfg.syncTimeout < sub32 nowMs s.lastSync) ∧
    (getSyncState cfg s nowMs = SyncState.SYNCED ↔
      s.synced = true ∧ sub32 nowMs s.lastSync ≤ cfg.syncTimeout) := by
  unfold getSyncState
  rcases hsync : s.synced
  · simp [hsync]
  · by_cases ht : cfg.syncTimeout < sub32 nowMs s.lastSync
    · simp only [hsync, ht]
      refine ⟨by simp, by simp [ht], by simp; omega⟩
    · simp only [hsync, ht]
      refine ⟨by simp, by simp [ht], by simp; omega⟩

/-- Claim C9: a frame that is not a valid clock frame (wrong length or wrong
magic) leaves the state untouched, `handleReceive` returns false, and in
owning mode the untouched frame `(mac, data, len)` goes to the user callback
when one is registered and is dropped otherwise. -/
theorem non_clock_frame_no_effect
    (cfg : Config) (s : State) (clock nowMs : Nat) (mac data : List Nat)
    (hnc : ¬ (data.length = 10 ∧ data.getD 0 0 = MESHCLOCK_MAGIC_0 ∧
              data.getD 1 0 = MESHCLOCK_MAGIC_1 ∧ data.getD 2 0 = MESHCLOCK_MAGIC_2)) :
    handleReceive cfg s clock nowMs mac data = (s, false) ∧
    onReceive cfg s clock nowMs mac data =
      (s, if s.userCallback then some (mac, data, data.length) else none) := by
  have h1 : handleReceive cfg s clock nowMs mac data = (s, false) := by
    unfold handleReceive
    exact if_neg hnc
  refine ⟨h1, ?_⟩
  unfold onReceive
  rw [h1]
  rcases hu : s.userCallback <;> simp

/-- Witness for C9: a 32-byte frame of arbitrary content is rejected and
forwarded verbatim to the registered user callback, leaving the state as it
was (spec scenario 6). -/
theorem non_clock_frame_no_effect_witness :
    (¬ ((List.replicate 32 171).length = 10 ∧
        (List.replicate 32 171).getD 0 0 = MESHCLOCK_MAGIC_0 ∧
        (List.replicate 32 171).getD 1 0 = MESHCLOCK_MAGIC_1 ∧
        (List.replicate 32 171).getD 2 0 = MESHCLOCK_MAGIC_2)) ∧
    handleReceive defaultConfig { initState with userCallback := true } 77 5
        [1, 2, 3, 4, 5, 6] (List.replicate 32 171) =
      ({ initState with userCallback := true }, false) ∧
    onReceive defaultConfig { initState with userCallback := true } 77 5
        [1, 2, 3, 4, 5, 6] (List.replicate 32 171) =
      ({ initState with userCallback := true },
        if ({ initState with userCallback := true } : State).userCallback then
          some ([1, 2, 3, 4, 5, 6], List.replicate 32 171,
                (List.replicate 32 171).length)
        else none) := by
  refine ⟨by decide, ?_⟩
  exact non_clock_frame_no_effect defaultConfig { initState with userCallback := true }
    77 5 [1, 2, 3, 4, 5, 6] (List.replicate 32 171) (by decide)

/-- Claim C1 (code bug): in `src/src/ESPNowMeshClock.cpp`, the large-step
branch of `_adjust` executes `_offset += delta` even when `delta` is
negative, so a first reception (`_synced == false`) of a remote timestamp
999000 at local mesh time 1000000 changes `_offset` from 0 to the bit
pattern of -1000, decreasing the mesh clock; the revision of `_adjust` at
`src/unnamed/part_001` (modelled by `adjustV2`) guards the branch with
`delta > 0` and leaves `_offset` unchanged, as the claim states. -/
theorem adjust_negative_large_step_changes_offset :
    (adjust defaultConfig initState 1000000 5 999000).offset = 2^64 - 1000 ∧
    (adjust defaultConfig initState 1000000 5 999000).offset ≠ initState.offset ∧
    (adjustV2 defaultConfig initState 1000000 5 999000).offset = initState.offset ∧
    meshMicros (adjust defaultConfig initState 1000000 5 999000) 1000000 = 999000 := by
  refine ⟨by decide, by decide, by decide, by decide⟩

/-- When the remote stamp is ahead of local mesh time and the gap is below
`2^63`, the wrapped `int64_t` delta of `_adjust` is the plain difference. -/
lemma deltaOf_eq_of_lt (s : State) (clock remote : Nat) (hrem : remote < 2^64)
    (hlt : meshMicros s clock < remote) (hdiff : remote - meshMicros s clock < 2^63) :
    deltaOf s clock remote = ((remote - meshMicros s clock : Nat) : Int) := by
  unfold meshMicros at *
  unfold deltaOf toInt64 sub64
  split <;> omega

/-- Claim C2: when `synced` is false or the gap exceeds `large_step_threshold`,
and the remote stamp is ahead, `_adjust` adds the whole delta to the offset
and the mesh clock lands exactly on the remote timestamp. -/
theorem adjust_large_step_matches_remote
    (cfg : Config) (s : State) (clock nowMs remote : Nat)
    (hrem : remote < 2^56)
    (hlt : meshMicros s clock < remote)
    (hcond : s.synced = false ∨ cfg.largeStep < remote - meshMicros s clock) :
    meshMicros (adjust cfg s clock nowMs remote) clock = remote ∧
    (adjust cfg s clock nowMs remote).offset =
      wrap64i ((s.offset : Int) + ((remote - meshMicros s clock : Nat) : Int)) := by
  have hd : deltaOf s clock remote = ((remote - meshMicros s clock : Nat) : Int) :=
    deltaOf_eq_of_lt s clock remote (by omega) hlt (by omega)
  have hbranch : ¬ s.synced ∨ (cfg.largeStep : Int) < absWrap (deltaOf s clock remote) := by
    rcases hcond with h | h
    · exact Or.inl (by simp [h])
    · refine Or.inr ?_
      rw [hd]
      unfold absWrap
      rw [if_pos (by omega)]
      omega
  unfold adjust
  rw [if_pos hbranch, hd]
  constructor
  · unfold meshMicros wrap64i at *
    simp only
    omega
  · rfl

/-- Witness for C2 at spec scenario 2: a cold node with local counter 100000
receiving remote stamp 2100000 jumps so that `meshMicros` reads 2100000. -/
theorem adjust_large_step_matches_remote_witness :
    (2100000 : Nat) < 2^56 ∧
    meshMicros initState 100000 < 2100000 ∧
    (initState.synced = false ∨
      defaultConfig.largeStep < 2100000 - meshMicros initState 100000) ∧
    (meshMicros (adjust defaultConfig initState 100000 0 2100000) 100000 = 2100000 ∧
     (adjust defaultConfig initState 100000 0 2100000).offset =
       wrap64i ((initState.offset : Int) +
         ((2100000 - meshMicros initState 100000 : Nat) : Int))) := by
  refine ⟨by decide, by decide, Or.inl (by decide), ?_⟩
  exact adjust_large_step_matches_remote defaultConfig initState 100000 0 2100000
    (by decide) (by decide) (Or.inl (by decide))

/-- Claim C6: the outgoing stamp of `_broadcast` (revision with
pre-compensation) is `meshMicros() + tx_delay`, the compile-time default of
the delay is 1000 microseconds, and a zero delay yields `meshMicros()`
exactly. -/
theorem broadcast_stamp_precompensation (txDelay : Nat) (s : State) (clock : Nat)
    (h : meshMicros s clock + txDelay < 2^64) :
    broadcastStamp txDelay s clock = meshMicros s clock + txDelay ∧
    broadcastStamp 0 s clock = meshMicros s clock ∧
    TRANSMISSION_DELAY_US = 1000 ∧
    broadcastFrame txDelay s clock = encodeStamp (meshMicros s clock + txDelay) := by
  have h1 : broadcastStamp txDelay s clock = meshMicros s clock + txDelay := by
    unfold broadcastStamp
    omega
  have h0 : broadcastStamp 0 s clock = meshMicros s clock := by
    unfold broadcastStamp meshMicros
    omega
  refine ⟨h1, h0, rfl, ?_⟩
  unfold broadcastFrame
  rw [h1]

/-- Witness for C6 with the default delay: a node at mesh time 123456 stamps
its frame 124456. -/
theorem broadcast_stamp_precompensation_witness :
    meshMicros initState 123456 + TRANSMISSION_DELAY_US < 2^64 ∧
    (broadcastStamp TRANSMISSION_DELAY_US initState 123456 =
        meshMicros initState 123456 + TRANSMISSION_DELAY_US ∧
      broadcastStamp 0 initState 123456 = meshMicros initState 123456 ∧
      TRANSMISSION_DELAY_US = 1000 ∧
      broadcastFrame TRANSMISSION_DELAY_US initState 123456 =
        encodeStamp (meshMicros initState 123456 + TRANSMISSION_DELAY_US)) := by
  refine ⟨by decide, ?_⟩
  exact broadcast_stamp_precompensation TRANSMISSION_DELAY_US initState 123456 (by decide)

/-- Bitwise or of a value below `2^k` with a value shifted left by `k` is
their sum (the two have no bits in common). -/
lemma lor_add_of_lt {a b k : Nat} (h : a < 2^k) : a ||| b <<< k = a + b * 2^k := by
  rw [Nat.shiftLeft_eq, Nat.lor_comm, Nat.mul_comm b (2^k), ← Nat.mul_add_lt_is_or h]
  omega

/-- Masking with `0xFF` is reduction modulo 256. -/
lemma and255 (x : Nat) : x &&& 255 = x % 256 := by
  have h := Nat.and_pow_two_sub_one_eq_mod x 8
  norm_num at h
  exact h

/-- Definitional unfolding of the decode loop applied to an encoded frame. -/
lemma extract_encode_unfold (s : Nat) :
    extractTimestamp (encodeStamp s) =
      ((((((0 ||| ((s >>> 0) &&& 0xFF) <<< 0) ||| ((s >>> 8) &&& 0xFF) <<< 8)
        ||| ((s >>> 16) &&& 0xFF) <<< 16) ||| ((s >>> 24) &&& 0xFF) <<< 24)
        ||| ((s >>> 32) &&& 0xFF) <<< 32) ||| ((s >>> 40) &&& 0xFF) <<< 40)
        ||| ((s >>> 48) &&& 0xFF) <<< 48 := rfl

/-- Decoding an encoded stamp reassembles its low 56 bits. -/
lemma extract_encode (s : Nat) : extractTimestamp (encodeStamp s) = s % 2^56 := by
  rw [extract_encode_unfold]
  simp only [Nat.shiftRight_eq_div_pow, and255, Nat.shiftLeft_zero, Nat.zero_or,
    pow_zero, Nat.div_one]
  rw [lor_add_of_lt (k := 8) (by omega)]
  rw [lor_add_of_lt (k := 16) (by omega)]
  rw [lor_add_of_lt (k := 24) (by omega)]
  rw [lor_add_of_lt (k := 32) (by omega)]
  rw [lor_add_of_lt (k := 40) (by omega)]
  rw [lor_add_of_lt (k := 48) (by omega)]
  omega

/-- Claim C5: for any stamp below `2^56`, decoding the 10-byte frame produced
by the encoder yields the stamp back, the decoded 64-bit value has its top
8 bits zero (it is below `2^56`, with no sign extension), and the frame is
10 bytes of `MCK` magic plus payload. -/
theorem codec_round_trip (stamp : Nat) (h : stamp < 2^56) :
    extractTimestamp (encodeStamp stamp) = stamp ∧
    extractTimestamp (encodeStamp stamp) < 2^56 ∧
    (encodeStamp stamp).length = 10 ∧
    (encodeStamp stamp).getD 0 0 = MESHCLOCK_MAGIC_0 ∧
    (encodeStamp stamp).getD 1 0 = MESHCLOCK_MAGIC_1 ∧
    (encodeStamp stamp).getD 2 0 = MESHCLOCK_MAGIC_2 := by
  have he : extractTimestamp (encodeStamp stamp) = stamp := by
    rw [extract_encode]
    omega
  exact ⟨he, by omega, rfl, rfl, rfl, rfl⟩

/-- Witness for C5 at a concrete 56-bit stamp. -/
theorem codec_round_trip_witness :
    (9938739662539247 : Nat) < 2^56 ∧
    (extractTimestamp (encodeStamp 9938739662539247) = 9938739662539247 ∧
     extractTimestamp (encodeStamp 9938739662539247) < 2^56 ∧
     (encodeStamp 9938739662539247).length = 10 ∧
     (encodeStamp 9938739662539247).getD 0 0 = MESHCLOCK_MAGIC_0 ∧
     (encodeStamp 9938739662539247).getD 1 0 = MESHCLOCK_MAGIC_1 ∧
     (encodeStamp 9938739662539247).getD 2 0 = MESHCLOCK_MAGIC_2) := by
  refine ⟨by decide, ?_⟩
  exact codec_round_trip 9938739662539247 (by decide)

/-- Claim C8: on a tick with `next_interval = 0` the fresh interval is
`interval + r` and lies in `[interval - variation, interval + variation]`
for `variation = interval * jitter_percent / 100`; whenever the wrapped
difference `nowMs - last_broadcast` reaches the chosen interval, the tick
records `last_broadcast = nowMs`, resets `next_interval` to 0 and emits
exactly one broadcast; otherwise it emits none. -/
theorem loop_schedule (cfg : Config) (s : State) (nowMs : Nat) (r : Int)
    (hI : cfg.interval ≤ 65535) (hJ : cfg.randomVariation ≤ 100)
    (hr1 : -(((cfg.interval * cfg.randomVariation / 100 : Nat) : Int)) ≤ r)
    (hr2 : r ≤ ((cfg.interval * cfg.randomVariation / 100 : Nat) : Int)) :
    (s.nextBroadcastDelay = 0 →
      ((chooseDelay cfg s r).nextBroadcastDelay : Int) = (cfg.interval : Int) + r ∧
      cfg.interval - cfg.interval * cfg.randomVariation / 100 ≤
        (chooseDelay cfg s r).nextBroadcastDelay ∧
      (chooseDelay cfg s r).nextBroadcastDelay ≤
        cfg.interval + cfg.interval * cfg.randomVariation / 100) ∧
    (s.nextBroadcastDelay ≠ 0 → chooseDelay cfg s r = s) ∧
    ((chooseDelay cfg s r).nextBroadcastDelay ≤
        sub32 nowMs (chooseDelay cfg s r).lastBroadcast →
      loop cfg s nowMs r =
        ({ (chooseDelay cfg s r) with
            lastBroadcast := nowMs % 2^32,
            nextBroadcastDelay := 0 }, true)) ∧
    (sub32 nowMs (chooseDelay cfg s r).lastBroadcast <
        (chooseDelay cfg s r).nextBroadcastDelay →
      loop cfg s nowMs r = (chooseDelay cfg s r, false)) := by
  have hv : cfg.interval * cfg.randomVariation ≤ cfg.interval * 100 :=
    Nat.mul_le_mul_left _ hJ
  refine ⟨?_, ?_, ?_, ?_⟩
  · intro h0
    have hc : chooseDelay cfg s r =
        { s with nextBroadcastDelay := wrap32i ((cfg.interval : Int) + r) } := by
      unfold chooseDelay
      rw [if_pos h0]
    rw [hc]
    simp only
    unfold wrap32i
    refine ⟨by omega, by omega, by omega⟩
  · intro h0
    unfold chooseDelay
    rw [if_neg h0]
  · intro hfire
    simp only [loop]
    rw [if_pos hfire]
  · intro hwait
    simp only [loop]
    rw [if_neg (by omega)]

/-- Witness for C8: with the default configuration, draw 37 (variation 100)
on a fresh tick at 2000 ms after a broadcast at 0 ms. -/
theorem loop_schedule_witness :
    defaultConfig.interval ≤ 65535 ∧
    defaultConfig.randomVariation ≤ 100 ∧
    -(((defaultConfig.interval * defaultConfig.randomVariation / 100 : Nat) : Int)) ≤ 37 ∧
    (37 : Int) ≤ ((defaultConfig.interval * defaultConfig.randomVariation / 100 : Nat) : Int) ∧
    ((initState.nextBroadcastDelay = 0 →
      ((chooseDelay defaultConfig initState 37).nextBroadcastDelay : Int) =
        (defaultConfig.interval : Int) + 37 ∧
      defaultConfig.interval - defaultConfig.interval * defaultConfig.randomVariation / 100 ≤
        (chooseDelay defaultConfig initState 37).nextBroadcastDelay ∧
      (chooseDelay defaultConfig initState 37).nextBroadcastDelay ≤
        defaultConfig.interval + defaultConfig.interval * defaultConfig.randomVariation / 100) ∧
    (initState.nextBroadcastDelay ≠ 0 → chooseDelay defaultConfig initState 37 = initState) ∧
    ((chooseDelay defaultConfig initState 37).nextBroadcastDelay ≤
        sub32 2000 (chooseDelay defaultConfig initState 37).lastBroadcast →
      loop defaultConfig initState 2000 37 =
        ({ (chooseDelay defaultConfig initState 37) with
            lastBroadcast := 2000 % 2^32,
            nextBroadcastDelay := 0 }, true)) ∧
    (sub32 2000 (chooseDelay defaultConfig initState 37).lastBroadcast <
        (chooseDelay defaultConfig initState 37).nextBroadcastDelay →
      loop defaultConfig initState 2000 37 = (chooseDelay defaultConfig initState 37, false))) := by
  refine ⟨by decide, by decide, by decide, by decide, ?_⟩
  exact loop_schedule defaultConfig initState 2000 37 (by decide) (by decide)
    (by decide) (by decide)

/-- The fuel-based bit count of 0 is 0. -/
lemma sigBits_zero : ∀ f, sigBits f 0 = 0 := by
  intro f
  cases f <;> simp [sigBits]

/-- With enough fuel, `sigBits` brackets its argument between consecutive
powers of two. -/
lemma sigBits_correct : ∀ (f n : Nat), 0 < n → n < 2^f →
    2^(sigBits f n - 1) ≤ n ∧ n < 2^(sigBits f n) := by
  intro f
  induction f with
  | zero =>
    intro n h1 h2
    simp at h2
    omega
  | succ f ih =>
    intro n h1 h2
    have hne : ¬ n = 0 := by omega
    rw [sigBits, if_neg hne]
    by_cases hsmall : n / 2 = 0
    · have hn1 : n = 1 := by omega
      subst hn1
      simp [hsmall, sigBits_zero]
    · have hpos : 0 < n / 2 := by omega
      have hlt : n / 2 < 2^f := by
        have : 2^(f+1) = 2^f * 2 := by ring
        omega
      obtain ⟨hlo, hhi⟩ := ih (n / 2) hpos hlt
      have hs1 : 1 ≤ sigBits f (n / 2) := by
        by_contra hc
        have h0 : sigBits f (n / 2) = 0 := by omega
        rw [h0] at hhi
        simp at hhi
        omega
      constructor
      · have he : 2^(sigBits f (n/2) + 1 - 1) = 2^(sigBits f (n/2) - 1) * 2 := by
          rw [← pow_succ]
          congr 1
          omega
        rw [he]
        omega
      · have he : 2^(sigBits f (n/2) + 1) = 2^(sigBits f (n/2)) * 2 := by rw [pow_succ]
        omega

/-- The bit count is the unique `a` with `2^(a-1) ≤ n < 2^a`. -/
lemma sigBits_eq {n a : Nat} (hn : 0 < n) (h64 : n < 2^64)
    (hlo : 2^(a-1) ≤ n) (hhi : n < 2^a) (ha : 0 < a) : sigBits 64 n = a := by
  obtain ⟨hlo', hhi'⟩ := sigBits_correct 64 n hn h64
  have hs1 : 1 ≤ sigBits 64 n := by
    by_contra hc
    have h0 : sigBits 64 n = 0 := by omega
    rw [h0] at hhi'
    simp at hhi'
    omega
  have h1 : sigBits 64 n - 1 < a :=
    (Nat.pow_lt_pow_iff_right one_lt_two).mp (lt_of_le_of_lt hlo' hhi)
  have h2 : a - 1 < sigBits 64 n :=
    (Nat.pow_lt_pow_iff_right one_lt_two).mp (lt_of_le_of_lt hlo hhi')
  omega

/-- Upper bound on the bit count from an upper bound on the value. -/
lemma sigBits_le {n a : Nat} (h64 : n < 2^64) (hhi : n < 2^a) : sigBits 64 n ≤ a := by
  rcases Nat.eq_zero_or_pos n with h0 | hp
  · rw [h0, sigBits_zero]
    omega
  · obtain ⟨hlo', _⟩ := sigBits_correct 64 n hp h64
    have h1 : sigBits 64 n - 1 < a :=
      (Nat.pow_lt_pow_iff_right one_lt_two).mp (lt_of_le_of_lt hlo' hhi)
    rcases Nat.eq_zero_or_pos (sigBits 64 n) with hz | hs
    · omega
    · omega

/-- A value that is a multiple of its rounding granule is unchanged by
binary32 rounding. -/
lemma f32roundNat_of_dvd {n : Nat} (h : 2^(sigBits 64 n - 24) ∣ n) :
    f32roundNat n = n := by
  unfold f32roundNat
  simp only
  have hg : 0 < 2^(sigBits 64 n - 24) := Nat.two_pow_pos _
  have hr : n % 2^(sigBits 64 n - 24) = 0 := Nat.mod_eq_zero_of_dvd h
  rw [hr]
  rw [if_pos (by omega)]
  exact Nat.div_mul_cancel h

/-- Integers up to `2^24` are exactly representable in binary32. -/
lemma f32roundNat_small {n : Nat} (h : n ≤ 2^24) : f32roundNat n = n := by
  rcases Nat.lt_or_ge n (2^24) with hlt | hge
  · refine f32roundNat_of_dvd ?_
    have hs : sigBits 64 n ≤ 24 := sigBits_le (by omega) hlt
    have h0 : sigBits 64 n - 24 = 0 := by omega
    rw [h0]
    simp
  · have hn : n = 2^24 := by omega
    subst hn
    refine f32roundNat_of_dvd ?_
    have hs : sigBits 64 (2^24) = 25 := by
      refine sigBits_eq (by norm_num) (by norm_num) ?_ (by norm_num) (by norm_num)
      norm_num
    rw [hs]
    norm_num

/-- Binary32 rounding moves a value up by at most half a granule. -/
lemma f32roundNat_le (n : Nat) :
    2 * f32roundNat n ≤ 2 * n + 2^(sigBits 64 n - 24) := by
  unfold f32roundNat
  simp only
  have hg : 0 < 2^(sigBits 64 n - 24) := Nat.two_pow_pos _
  have hdm : 2^(sigBits 64 n - 24) * (n / 2^(sigBits 64 n - 24)) +
      n % 2^(sigBits 64 n - 24) = n := Nat.div_add_mod n _
  have hsucc : (n / 2^(sigBits 64 n - 24) + 1) * 2^(sigBits 64 n - 24) =
      n / 2^(sigBits 64 n - 24) * 2^(sigBits 64 n - 24) + 2^(sigBits 64 n - 24) := by
    ring
  have hmc : n / 2^(sigBits 64 n - 24) * 2^(sigBits 64 n - 24) =
      2^(sigBits 64 n - 24) * (n / 2^(sigBits 64 n - 24)) := Nat.mul_comm _ _
  split
  · omega
  · split
    · omega
    · split
      · omega
      · omega

/-- A number of at most 24 bits times a power of two is exactly
representable in binary32. -/
lemma f32roundNat_mul_pow2 {m j : Nat} (hm : m ≤ 2^24) (hbig : m * 2^j < 2^64) :
    f32roundNat (m * 2^j) = m * 2^j := by
  rcases Nat.eq_zero_or_pos m with h0 | hp
  · rw [h0]
    simp [f32roundNat_small]
  · have hm64 : m < 2^64 := by
      have h1 : 1 ≤ 2^j := Nat.two_pow_pos j
      have h2 : m * 1 ≤ m * 2^j := Nat.mul_le_mul_left m h1
      omega
    obtain ⟨hlo, hhi⟩ := sigBits_correct 64 m hp hm64
    have hs25 : sigBits 64 m ≤ 25 := by
      by_contra hc
      have h26 : 26 ≤ sigBits 64 m := by omega
      have ha : 2^25 ≤ 2^(sigBits 64 m - 1) := Nat.pow_le_pow_right (by norm_num) (by omega)
      have hb : (2:Nat)^25 ≤ m := le_trans ha hlo
      norm_num at hb
      omega
    have hs1 : 1 ≤ sigBits 64 m := by
      by_contra hc
      have h0 : sigBits 64 m = 0 := by omega
      rw [h0] at hhi
      simp at hhi
      omega
    have hsig : sigBits 64 (m * 2^j) = sigBits 64 m + j := by
      refine sigBits_eq (by positivity) hbig ?_ ?_ (by omega)
      · have he : sigBits 64 m + j - 1 = (sigBits 64 m - 1) + j := by omega
        rw [he, pow_add]
        exact Nat.mul_le_mul_right _ hlo
      · rw [pow_add]
        exact (Nat.mul_lt_mul_right (Nat.two_pow_pos j)).mpr hhi
    refine f32roundNat_of_dvd ?_
    rw [hsig]
    rcases Nat.lt_or_ge (sigBits 64 m) 25 with h24 | h25
    · have hj : sigBits 64 m + j - 24 ≤ j := by omega
      exact Dvd.dvd.mul_left (pow_dvd_pow 2 hj) m
    · have hs : sigBits 64 m = 25 := by omega
      have hm' : m = 2^24 := by
        rw [hs] at hlo
        norm_num at hlo
        omega
      subst hm'
      rw [hs]
      have he : (2:Nat)^24 * 2^j = 2^(24+j) := by rw [← pow_add]
      rw [he]
      exact pow_dvd_pow 2 (by omega)

/-- For a power-of-two alpha (such as the default 0.25) and a delta in the
binary32 exact range, the float slew step is the exact floored product. -/
lemma slewStep_pow2 {aExp d : Nat} (h : d ≤ 2^24) :
    slewStep 1 aExp d = d / 2^aExp := by
  unfold slewStep
  rw [f32roundNat_small h, Nat.mul_one, f32roundNat_small h]

/-- For any binary32 alpha in `[0, 1]` and a delta in the binary32 exact
range, the float slew step never exceeds the delta. -/
lemma slewStep_le {aNum aExp d : Nat} (h1 : aNum < 2^24) (h2 : aNum ≤ 2^aExp)
    (h3 : d ≤ 2^24) : slewStep aNum aExp d ≤ d := by
  unfold slewStep
  rw [f32roundNat_small h3]
  rcases Nat.eq_zero_or_pos aNum with ha0 | hap
  · rw [ha0, Nat.mul_zero, f32roundNat_small (by norm_num)]
    simp
  rcases Nat.eq_zero_or_pos d with hd0 | hdp
  · rw [hd0, Nat.zero_mul, f32roundNat_small (by norm_num)]
    simp
  rcases Nat.lt_or_ge aNum (2^aExp) with halt | hage
  · have hE1 : 1 ≤ aExp := by
      by_contra hc
      have h0 : aExp = 0 := by omega
      rw [h0] at halt
      norm_num at halt
      omega
    have hxlt : d * aNum < 2^64 := by
      have hb1 : d * aNum ≤ 2^24 * 2^24 := Nat.mul_le_mul h3 (by omega)
      norm_num at hb1 ⊢
      omega
    have hxE : d * aNum < 2^(24 + aExp) := by
      rw [pow_add]
      exact Nat.mul_lt_mul_of_le_of_lt h3 halt (Nat.two_pow_pos 24)
    have hsx : sigBits 64 (d * aNum) ≤ 24 + aExp := sigBits_le hxlt hxE
    have hgle : 2^(sigBits 64 (d * aNum) - 24) ≤ 2^aExp :=
      Nat.pow_le_pow_right (by norm_num) (by omega)
    have hb := f32roundNat_le (d * aNum)
    have hxa : d * aNum ≤ d * (2^aExp - 1) := Nat.mul_le_mul_left d (by omega)
    have hda : d * (2^aExp - 1) + d = d * 2^aExp := by
      have he : (2^aExp - 1) + 1 = 2^aExp := by
        have := Nat.two_pow_pos aExp
        omega
      calc d * (2^aExp - 1) + d = d * ((2^aExp - 1) + 1) := by ring
      _ = d * 2^aExp := by rw [he]
    have hgoal : f32roundNat (d * aNum) < (d + 1) * 2^aExp := by
      have hdd : (d + 1) * 2^aExp = d * 2^aExp + 2^aExp := by ring
      omega
    have hfin := (Nat.div_lt_iff_lt_mul (Nat.two_pow_pos aExp)).mpr hgoal
    omega
  · have heq : aNum = 2^aExp := by omega
    subst heq
    have hE24 : aExp < 24 := by
      by_contra hc
      have ha : (2:Nat)^24 ≤ 2^aExp := Nat.pow_le_pow_right (by norm_num) (by omega)
      omega
    have hbig : d * 2^aExp < 2^64 := by
      have hb1 : d * 2^aExp ≤ 2^24 * 2^aExp := Nat.mul_le_mul_right _ h3
      have hb2 : (2:Nat)^24 * 2^aExp = 2^(24 + aExp) := by rw [← pow_add]
      have hb3 : (2:Nat)^(24 + aExp) < 2^64 := Nat.pow_lt_pow_right (by norm_num) (by omega)
      omega
    rw [f32roundNat_mul_pow2 h3 hbig]
    rw [Nat.mul_div_cancel _ (Nat.two_pow_pos aExp)]

/-- In the synced, small-positive-delta case, `_adjust` takes the slew
branch and adds the float step to the offset. -/
lemma adjust_slew_eq (cfg : Config) (s : State) (clock nowMs remote : Nat)
    (hs : s.synced = true) (hrem : remote < 2^64)
    (hlt : meshMicros s clock < remote)
    (h63 : remote - meshMicros s clock < 2^63)
    (hth : remote - meshMicros s clock ≤ cfg.largeStep) :
    adjust cfg s clock nowMs remote =
      { s with lastSync := nowMs % 2^32,
               offset := (s.offset + slewStep cfg.alphaNum cfg.alphaDen
                 (remote - meshMicros s clock)) % 2^64 } := by
  have hd : deltaOf s clock remote = ((remote - meshMicros s clock : Nat) : Int) :=
    deltaOf_eq_of_lt s clock remote hrem hlt h63
  have habs : absWrap ((remote - meshMicros s clock : Nat) : Int) =
      ((remote - meshMicros s clock : Nat) : Int) := by
    unfold absWrap
    rw [if_pos (by omega)]
  unfold adjust
  rw [hd, habs]
  rw [if_neg (by simp only [hs]; simp; omega)]
  rw [if_pos (by omega)]
  simp

/-- Counterexample for C7 as stated: with the default slew_alpha = 0.25 but
`large_step_threshold = 2^25`, a synced node at mesh time 0 receiving remote
stamp `2^24 + 3` (delta 16777219, within the threshold) applies the float32
step 4194305, not the exact `floor(delta * 0.25) = 4194304`, because
converting 16777219 to `float` rounds it to 16777220. -/
theorem slew_step_deviates_from_exact_floor :
    ({ initState with synced := true } : State).synced = true ∧
    meshMicros { initState with synced := true } 0 < 16777219 ∧
    16777219 - meshMicros { initState with synced := true } 0 ≤
      ({ defaultConfig with largeStep := 2^25 } : Config).largeStep ∧
    (adjust { defaultConfig with largeStep := 2^25 }
        { initState with synced := true } 0 0 16777219).offset =
      ({ initState with synced := true } : State).offset + 4194305 ∧
    (adjust { defaultConfig with largeStep := 2^25 }
        { initState with synced := true } 0 0 16777219).offset ≠
      ({ initState with synced := true } : State).offset +
        (16777219 - meshMicros { initState with synced := true } 0) *
          ({ defaultConfig with largeStep := 2^25 } : Config).alphaNum /
          2^({ defaultConfig with largeStep := 2^25 } : Config).alphaDen := by
  refine ⟨by decide, by decide, by decide, by decide, by decide⟩

/-- Claim C7 (amended): in the synced, small-positive-delta case with a
power-of-two slew fraction `alphaNum = 1` (the default 0.25 is `1 / 2^2`)
and a delta in the binary32 exact range `delta ≤ 2^24`, the offset grows by
exactly `floor(delta * slew_alpha)`; outside that range the float32
multiplication used by the code can deviate from the exact floor. -/
theorem adjust_slew_exact_floor_small_delta
    (cfg : Config) (s : State) (clock nowMs remote : Nat)
    (hA : cfg.alphaNum = 1)
    (hs : s.synced = true)
    (hrem : remote < 2^64)
    (hlt : meshMicros s clock < remote)
    (hth : remote - meshMicros s clock ≤ cfg.largeStep)
    (h24 : remote - meshMicros s clock ≤ 2^24) :
    (adjust cfg s clock nowMs remote).offset =
      (s.offset + (remote - meshMicros s clock) * cfg.alphaNum / 2^cfg.alphaDen)
        % 2^64 := by
  rw [adjust_slew_eq cfg s clock nowMs remote hs hrem hlt (by omega) hth]
  show (s.offset + slewStep cfg.alphaNum cfg.alphaDen
    (remote - meshMicros s clock)) % 2^64 = _
  rw [hA, slewStep_pow2 h24, Nat.mul_one]

/-- Witness for C7 (amended) at spec scenario 3: synced, local mesh time
1000000, remote 1000400, delta 400: the offset grows by
`floor(400 * 0.25) = 100`. -/
theorem adjust_slew_exact_floor_small_delta_witness :
    defaultConfig.alphaNum = 1 ∧
    ({ initState with synced := true } : State).synced = true ∧
    (1000400 : Nat) < 2^64 ∧
    meshMicros { initState with synced := true } 1000000 < 1000400 ∧
    1000400 - meshMicros { initState with synced := true } 1000000 ≤
      defaultConfig.largeStep ∧
    1000400 - meshMicros { initState with synced := true } 1000000 ≤ 2^24 ∧
    (adjust defaultConfig { initState with synced := true } 1000000 0 1000400).offset =
      (({ initState with synced := true } : State).offset +
        (1000400 - meshMicros { initState with synced := true } 1000000) *
          defaultConfig.alphaNum / 2^defaultConfig.alphaDen) % 2^64 := by
  refine ⟨by decide, by decide, by decide, by decide, by decide, by decide, ?_⟩
  exact adjust_slew_exact_floor_small_delta defaultConfig
    { initState with synced := true } 1000000 0 1000400
    (by decide) (by decide) (by decide) (by decide) (by decide) (by decide)

/-- Counterexample for C10 as stated: with slew_alpha = 1.0 (in `[0, 1]`,
stored as the float `2^23 / 2^23`) and `large_step_threshold = 2^25`, a
synced node at mesh time 0 receiving remote stamp `2^24 + 3` applies step
16777220, one more than the delta 16777219, so the mesh clock lands at
16777220 and overshoots the remote timestamp. -/
theorem slew_alpha_one_overshoots :
    ({ defaultConfig with alphaNum := 2^23, alphaDen := 23, largeStep := 2^25 }
        : Config).alphaNum ≤
      2^({ defaultConfig with alphaNum := 2^23, alphaDen := 23, largeStep := 2^25 }
        : Config).alphaDen ∧
    ({ initState with synced := true } : State).synced = true ∧
    meshMicros { initState with synced := true } 0 < 16777219 ∧
    16777219 - meshMicros { initState with synced := true } 0 ≤
      ({ defaultConfig with alphaNum := 2^23, alphaDen := 23, largeStep := 2^25 }
        : Config).largeStep ∧
    16777219 - meshMicros { initState with synced := true } 0 <
      slewStep (2^23) 23 (16777219 - meshMicros { initState with synced := true } 0) ∧
    16777219 <
      meshMicros (adjust
        { defaultConfig with alphaNum := 2^23, alphaDen := 23, largeStep := 2^25 }
        { initState with synced := true } 0 0 16777219) 0 := by
  refine ⟨by decide, by decide, by decide, by decide, by decide, by decide⟩

/-- Claim C10 (amended): in the synced, small-positive-delta case, for any
binary32 slew_alpha in `[0, 1]` (significand `alphaNum < 2^24`, value
`alphaNum / 2^alphaDen ≤ 1`) and a delta in the binary32 exact range
`delta ≤ 2^24`, the applied step is at most the delta, so the mesh clock
after the adjustment does not overshoot the remote timestamp; for deltas
above `2^24` the float32 rounding can overshoot by one microsecond. -/
theorem adjust_slew_no_overshoot
    (cfg : Config) (s : State) (clock nowMs remote : Nat)
    (hA1 : cfg.alphaNum < 2^24)
    (hA2 : cfg.alphaNum ≤ 2^cfg.alphaDen)
    (hs : s.synced = true)
    (hrem : remote < 2^64)
    (hlt : meshMicros s clock < remote)
    (hth : remote - meshMicros s clock ≤ cfg.largeStep)
    (h24 : remote - meshMicros s clock ≤ 2^24) :
    slewStep cfg.alphaNum cfg.alphaDen (remote - meshMicros s clock) ≤
      remote - meshMicros s clock ∧
    meshMicros (adjust cfg s clock nowMs remote) clock ≤ remote := by
  have hstep : slewStep cfg.alphaNum cfg.alphaDen (remote - meshMicros s clock) ≤
      remote - meshMicros s clock := slewStep_le hA1 hA2 h24
  refine ⟨hstep, ?_⟩
  rw [adjust_slew_eq cfg s clock nowMs remote hs hrem hlt (by omega) hth]
  show (clock + (s.offset + slewStep cfg.alphaNum cfg.alphaDen
    (remote - meshMicros s clock)) % 2^64) % 2^64 ≤ remote
  unfold meshMicros at *
  omega

/-- Witness for C10 (amended) at spec scenario 3: the step 100 is at most
the delta 400 and the mesh clock lands at 1000100, not beyond 1000400. -/
theorem adjust_slew_no_overshoot_witness :
    defaultConfig.alphaNum < 2^24 ∧
    defaultConfig.alphaNum ≤ 2^defaultConfig.alphaDen ∧
    ({ initState with synced := true } : State).synced = true ∧
    (1000400 : Nat) < 2^64 ∧
    meshMicros { initState with synced := true } 1000000 < 1000400 ∧
    1000400 - meshMicros { initState with synced := true } 1000000 ≤
      defaultConfig.largeStep ∧
    1000400 - meshMicros { initState with synced := true } 1000000 ≤ 2^24 ∧
    (slewStep defaultConfig.alphaNum defaultConfig.alphaDen
        (1000400 - meshMicros { initState with synced := true } 1000000) ≤
      1000400 - meshMicros { initState with synced := true } 1000000 ∧
    meshMicros (adjust defaultConfig { initState with synced := true }
        1000000 0 1000400) 1000000 ≤ 1000400) := by
  refine ⟨by decide, by decide, by decide, by decide, by decide, by decide, by decide, ?_⟩
  exact adjust_slew_no_overshoot defaultConfig { initState with synced := true }
    1000000 0 1000400 (by decide) (by decide) (by decide) (by decide) (by decide)
    (by decide) (by decide)
